import Mathlib

/-!
# A verification model of python-json-patch (jsonpatch.py, version 1.16)

This file embeds the patch applier, the operation model, the patch facade and
the diff synthesizer of `jsonpatch.py` as executable Lean definitions, together
with a model of the external JSON Pointer collaborator (the `jsonpointer`
module is not part of this repository; it is modelled from the interface
described in the specification, sections 4.1 and 6).

Conventions of the embedding:
* Python JSON values are the inductive `JsonValue`; objects are ordered
  association lists (Python dicts are insertion ordered and have unique keys).
* Python `==` on JSON values is `pyEq`; dict comparison ignores key order.
* Exceptions are an explicit `Except PyError` result.  The distinct Python
  exception classes are the constructors of `PyError`; `indexError`,
  `typeError`, `keyError` and `valueError` stand for uncaught builtin
  exceptions escaping the library.
* The mutually recursive diff synthesizer carries an explicit fuel argument
  (the source recursion has no structural measure because `_optimize` calls
  back into `make_patch`); `outOfFuel` marks exhaustion and never occurs in
  any of the concrete evaluations below.
-/

/-- A Python JSON value: null, bool, number, string, array, or object
(an insertion-ordered dict from string keys to values). Numbers are modelled
as integers. -/
inductive JsonValue where
  | null
  | bool (b : Bool)
  | num (n : Int)
  | str (s : String)
  | arr (xs : List JsonValue)
  | obj (kvs : List (String × JsonValue))
deriving Repr

/-- Python dict lookup (first occurrence; Python dicts have unique keys). -/
def pyFind (k : String) : List (String × JsonValue) → Option JsonValue
  | [] => none
  | (k', v) :: rest => if k' == k then some v else pyFind k rest

mutual

/-- Python structural equality `==` on JSON values: dicts compare by key set
and per-key values (order irrelevant), lists elementwise. -/
def pyEq : JsonValue → JsonValue → Bool
  | .null, .null => true
  | .bool a, .bool b => a == b
  | .num a, .num b => a == b
  | .str a, .str b => a == b
  | .arr a, .arr b => pyEqList a b
  | .obj a, .obj b => a.length == b.length && pyEqObj a b
  | _, _ => false

/-- Elementwise Python `==` on lists. -/
def pyEqList : List JsonValue → List JsonValue → Bool
  | [], [] => true
  | x :: xs, y :: ys => pyEq x y && pyEqList xs ys
  | _, _ => false

/-- Every entry of the first dict has an equal entry in the second; combined
with equal lengths (and unique keys) this is Python dict `==`. -/
def pyEqObj : List (String × JsonValue) → List (String × JsonValue) → Bool
  | [], _ => true
  | (k, v) :: rest, b =>
      (match pyFind k b with
       | some w => pyEq v w
       | none => false) && pyEqObj rest b

end

example : pyEq (.obj [("a", .num 1), ("b", .null)])
               (.obj [("b", .null), ("a", .num 1)]) = true := rfl

example : pyEq (.arr [.num 1, .str "x"]) (.arr [.num 1, .str "y"]) = false := rfl

/-- The exceptions that can escape the library.  The first four are the
named `jsonpatch`/`jsonpointer` exception classes; the others are uncaught
Python builtin exceptions. -/
inductive PyError where
  | invalidPatch   -- InvalidJsonPatch
  | conflict       -- JsonPatchConflict
  | testFailed     -- JsonPatchTestFailed
  | pointerError   -- JsonPointerException (from the pointer collaborator)
  | typeError      -- uncaught TypeError
  | indexError     -- uncaught IndexError
  | keyError       -- uncaught KeyError
  | valueError     -- uncaught ValueError
  | outOfFuel      -- fuel exhaustion of the embedded diff recursion (never a Python behavior)
deriving Repr, DecidableEq

/- ## String utilities (structural, so that they evaluate in the kernel) -/

/-- Split a character list on a separator; a la Python `str.split`, the empty
string yields `[""]` and separators at the ends yield empty fields. -/
def splitCharAux (c : Char) : List Char → List Char → List (List Char)
  | [], acc => [acc.reverse]
  | x :: xs, acc =>
      if x == c then acc.reverse :: splitCharAux c xs []
      else splitCharAux c xs (x :: acc)

def splitChar (c : Char) (s : List Char) : List (List Char) :=
  splitCharAux c s []

/-- Modelled from the spec: JSON Pointer token unescaping, `~1` to `/` then
`~0` to `~` (section 3).  The `jsonpointer` collaborator is not part of this
repository; a single left-to-right scan realizes the two escape rules. -/
def unescapeChars : List Char → List Char
  | [] => []
  | '~' :: '1' :: rest => '/' :: unescapeChars rest
  | '~' :: '0' :: rest => '~' :: unescapeChars rest
  | c :: rest => c :: unescapeChars rest

/-- Modelled from the spec: JSON Pointer token escaping, `~` to `~0` and `/`
to `~1` (section 4.2). -/
def escapeChars : List Char → List Char
  | [] => []
  | '~' :: rest => '~' :: '0' :: escapeChars rest
  | '/' :: rest => '~' :: '1' :: escapeChars rest
  | c :: rest => c :: escapeChars rest

/-- Value of a nonempty all-digit character list, else `none`. -/
def parseDigits (cs : List Char) : Option Nat :=
  match cs with
  | [] => none
  | _ =>
    if cs.all Char.isDigit then
      some (cs.foldl (fun n c => 10 * n + (c.toNat - 48)) 0)
    else none

/-- Python `int(token)` on a pointer token: an optional minus sign followed
by digits.  Modelled from the spec: integer tokens address arrays; any
non-integer token is a pointer-level failure (section 4.1). -/
def parseIntToken (s : String) : Option Int :=
  match s.data with
  | '-' :: rest => (parseDigits rest).map (fun n => -(n : Int))
  | cs => (parseDigits cs).map (fun n => (n : Int))

/-- Render an integer the way Python `str` does. -/
def intToStr (i : Int) : String := toString i

/- ## The JSON Pointer collaborator (modelled from the spec, section 6) -/

/-- The final token of a resolved pointer, as handed to an operation:
`root` is Python `None` (empty pointer), `key` a mapping key, `idx` an
integer array index, `dash` the literal `-`. -/
inductive PtrPart where
  | root
  | key (k : String)
  | idx (i : Int)
  | dash
deriving Repr, DecidableEq

/-- Modelled from the spec: `parse(string) -> Pointer | PointerError`.
A pointer string is empty or starts with `/`; tokens are the `/`-separated
fields, unescaped. -/
def parsePointer (s : String) : Except PyError (List String) :=
  match splitChar '/' s.data with
  | [] => .error .pointerError
  | first :: rest =>
      if first.isEmpty then
        .ok (rest.map (fun cs => String.mk (unescapeChars cs)))
      else .error .pointerError

/-- Modelled from the spec: cast the final token against the parent
container; integer tokens (and the `-` marker) for arrays, plain keys for
objects, failure on scalars. -/
def getPart (doc : JsonValue) (tok : String) : Except PyError PtrPart :=
  match doc with
  | .obj _ => .ok (.key tok)
  | .arr _ =>
      if tok == "-" then .ok .dash
      else
        match parseIntToken tok with
        | some i => .ok (.idx i)
        | none => .error .pointerError
  | _ => .error .pointerError

/-- Python list indexing with negative wrap-around: the normalized index, or
`none` when out of range. -/
def pyNormIdx (len : Nat) (i : Int) : Option Nat :=
  if 0 ≤ i && i < (len : Int) then some i.toNat
  else if -(len : Int) ≤ i && i < 0 then some ((len : Int) + i).toNat
  else none

def pyIdx (xs : List JsonValue) (i : Int) : Option JsonValue :=
  (pyNormIdx xs.length i).bind (fun n => xs.get? n)

def pySetIdx (xs : List JsonValue) (i : Int) (v : JsonValue) : List JsonValue :=
  match pyNormIdx xs.length i with
  | some n => xs.set n v
  | none => xs

def insertAtNat (xs : List JsonValue) (n : Nat) (v : JsonValue) : List JsonValue :=
  xs.take n ++ v :: xs.drop n

/-- Python dict assignment: update an existing key in place, else append. -/
def setAssoc : List (String × JsonValue) → String → JsonValue → List (String × JsonValue)
  | [], k, v => [(k, v)]
  | (k', v') :: rest, k, v =>
      if k' == k then (k, v) :: rest else (k', v') :: setAssoc rest k v

/-- Python `del dict[k]`: `none` when the key is missing. -/
def delAssoc : List (String × JsonValue) → String → Option (List (String × JsonValue))
  | [], _ => none
  | (k', v') :: rest, k =>
      if k' == k then some rest else (delAssoc rest k).map (fun l => (k', v') :: l)

/-- Modelled from the spec: one resolution step of the pointer walk.  The
`-` marker is not traversable (it denotes the virtual end-of-array position
and is only meaningful as the final token of an `add`). -/
def walkStep (doc : JsonValue) (tok : String) : Except PyError JsonValue :=
  match doc with
  | .obj kvs =>
      match pyFind tok kvs with
      | some v => .ok v
      | none => .error .pointerError
  | .arr xs =>
      if tok == "-" then .error .pointerError
      else
        match parseIntToken tok with
        | some i =>
            match pyIdx xs i with
            | some v => .ok v
            | none => .error .pointerError
        | none => .error .pointerError
  | _ => .error .pointerError

/-- Modelled from the spec: `to_last(Pointer, doc)` yields the parent
container and the cast final token; the empty pointer yields the document
itself and `None`. -/
def toLastRead (parts : List String) (doc : JsonValue) : Except PyError (JsonValue × PtrPart) :=
  match parts with
  | [] => .ok (doc, .root)
  | [last] => do
      let p ← getPart doc last
      .ok (doc, p)
  | tok :: rest => do
      let c ← walkStep doc tok
      toLastRead rest c

/-- Modelled from the spec: a single `walk` step with an already-cast part,
as used by the `test` operation. -/
def walkPart (parent : JsonValue) (p : PtrPart) : Except PyError JsonValue :=
  match parent, p with
  | .obj kvs, .key k =>
      match pyFind k kvs with
      | some v => .ok v
      | none => .error .pointerError
  | .arr xs, .idx i =>
      match pyIdx xs i with
      | some v => .ok v
      | none => .error .pointerError
  | _, _ => .error .pointerError

/-- Modelled from the spec: `contains` as used at the `move` conflict check
`self.pointer.contains(from_ptr)`.  Per sections 4.1 and 8 (B7) the check
fires exactly when `path` lies strictly below `from`, i.e. when the `from`
pointer is an ancestor of `path`: token-list prefix. -/
def ptrContains (selfParts other : List String) : Bool :=
  other.isPrefixOf selfParts

/-- Traverse `parts` to the addressed parent, apply `f` to the parent and
the cast final token, and rebuild the document along the path.  This is the
value-semantics rendering of `to_last` followed by an in-place mutation of
the returned parent: the traversal and its failures are those of `to_last`,
and `f` is the operation body. -/
def updateAt (f : JsonValue → PtrPart → Except PyError JsonValue) :
    List String → JsonValue → Except PyError JsonValue
  | [], doc => f doc .root
  | [last], doc => do
      let p ← getPart doc last
      f doc p
  | tok :: rest, doc =>
      match doc with
      | .obj kvs =>
          match pyFind tok kvs with
          | some child => do
              let c' ← updateAt f rest child
              .ok (.obj (setAssoc kvs tok c'))
          | none => .error .pointerError
      | .arr xs =>
          if tok == "-" then .error .pointerError
          else
            match parseIntToken tok with
            | some i =>
                match pyIdx xs i with
                | some child => do
                    let c' ← updateAt f rest child
                    .ok (.arr (pySetIdx xs i c'))
                | none => .error .pointerError
            | none => .error .pointerError
      | _ => .error .pointerError

/- ## copy.deepcopy -/

mutual

/-- `copy.deepcopy` on a JSON value: a full structural clone sharing no
containers with the input. -/
def deepcopy : JsonValue → JsonValue
  | .null => .null
  | .bool b => .bool b
  | .num n => .num n
  | .str s => .str s
  | .arr xs => .arr (deepcopyList xs)
  | .obj kvs => .obj (deepcopyObj kvs)

def deepcopyList : List JsonValue → List JsonValue
  | [] => []
  | x :: xs => deepcopy x :: deepcopyList xs

def deepcopyObj : List (String × JsonValue) → List (String × JsonValue)
  | [] => []
  | (k, v) :: rest => (k, deepcopy v) :: deepcopyObj rest

end

/- ## The operation model -/

/-- The six operation tags recognized by `JsonPatch.operations`. -/
inductive OpKind where
  | add | remove | replace | move | copy | test
deriving Repr, DecidableEq

def opFromString (s : String) : Option OpKind :=
  if s == "remove" then some .remove
  else if s == "add" then some .add
  else if s == "replace" then some .replace
  else if s == "move" then some .move
  else if s == "test" then some .test
  else if s == "copy" then some .copy
  else none

/-- An operation record: the raw Python dict of an operation, an
insertion-ordered association list with string keys. -/
abbrev OpRec := List (String × JsonValue)

/-- The result of `JsonPatch._get_operation` plus `PatchOperation.__init__`:
the resolved operation class, the raw `path` string, its parsed pointer, and
the untouched record. -/
structure MatOp where
  kind : OpKind
  location : String
  parts : List String
  record : OpRec
deriving Repr

/-- `JsonPatch._get_operation` followed by `PatchOperation.__init__`:
missing, non-string or unknown `op` raises `InvalidJsonPatch`; a missing
`path` is an uncaught `KeyError`; the `path` string is parsed as a pointer
at construction time. -/
def materializeOp (r : OpRec) : Except PyError MatOp :=
  match pyFind "op" r with
  | none => .error .invalidPatch
  | some opv =>
      match opv with
      | .str s =>
          match opFromString s with
          | none => .error .invalidPatch
          | some kind =>
              match pyFind "path" r with
              | none => .error .keyError
              | some pv =>
                  match pv with
                  | .str loc => (parsePointer loc).map (fun parts => ⟨kind, loc, parts, r⟩)
                  | _ => .error .typeError
      | _ => .error .invalidPatch

/-- Python `subobj[part]` as used by `move` and `copy` to read the source
value: `KeyError`/`IndexError` are caught and re-raised as
`JsonPatchConflict`; indexing a list with `None` or `"-"`, or a scalar at
all, is an uncaught `TypeError`. -/
def pySubscript (parent : JsonValue) (p : PtrPart) : Except PyError JsonValue :=
  match parent, p with
  | .obj kvs, .key k =>
      match pyFind k kvs with
      | some v => .ok v
      | none => .error .conflict
  | .obj _, .root => .error .conflict
  | .arr xs, .idx i =>
      match pyIdx xs i with
      | some v => .ok v
      | none => .error .conflict
  | _, _ => .error .typeError

/-- `AddOperation.apply` after the `value` lookup: append on `-`; insert at
`0 <= i <= len` (out of range or negative is a conflict); on a mapping parent
set the key, or replace the document root when the pointer is empty; a `None`
part against a list is the uncaught `TypeError` of `None > len(...)`; any
other parent is the explicit `TypeError("invalid document type")`. -/
def addCore (parts : List String) (value : JsonValue) (doc : JsonValue) :
    Except PyError JsonValue :=
  updateAt (fun parent part =>
    match parent, part with
    | .arr xs, .dash => .ok (.arr (xs ++ [value]))
    | .arr xs, .idx i =>
        if i > (xs.length : Int) || i < 0 then .error .conflict
        else .ok (.arr (insertAtNat xs i.toNat value))
    | .arr _, _ => .error .typeError
    | .obj _, .root => .ok value
    | .obj kvs, .key k => .ok (.obj (setAssoc kvs k value))
    | .obj _, _ => .error .typeError
    | _, _ => .error .typeError) parts doc

/-- `RemoveOperation.apply`: `del subobj[part]` with `KeyError`/`IndexError`
re-raised as `JsonPatchConflict`; deleting with a `None` or `"-"` part from a
list, or from a scalar, is an uncaught `TypeError`. -/
def removeCore (parts : List String) (doc : JsonValue) : Except PyError JsonValue :=
  updateAt (fun parent part =>
    match parent, part with
    | .obj kvs, .key k =>
        match delAssoc kvs k with
        | some kvs' => .ok (.obj kvs')
        | none => .error .conflict
    | .obj _, .root => .error .conflict
    | .arr xs, .idx i =>
        match pyNormIdx xs.length i with
        | some n => .ok (.arr (xs.eraseIdx n))
        | none => .error .conflict
    | _, _ => .error .typeError) parts doc

/-- `ReplaceOperation.apply` after the `value` lookup: a `None` part returns
`value` as the new root; on a list parent only `part > len` or `part < 0` is
caught as a conflict, so `part == len` falls through to the assignment
`subobj[part] = value` and raises an uncaught `IndexError`; on a mapping
parent the key must exist; a `"-"` part is the uncaught `TypeError` of
`"-" > len(...)`. -/
def replaceCore (parts : List String) (value : JsonValue) (doc : JsonValue) :
    Except PyError JsonValue :=
  updateAt (fun parent part =>
    match part with
    | .root => .ok value
    | .dash => .error .typeError
    | .idx i =>
        match parent with
        | .arr xs =>
            if i > (xs.length : Int) || i < 0 then .error .conflict
            else if i == (xs.length : Int) then .error .indexError
            else .ok (.arr (pySetIdx xs i value))
        | _ => .error .typeError
    | .key k =>
        match parent with
        | .obj kvs =>
            match pyFind k kvs with
            | some _ => .ok (.obj (setAssoc kvs k value))
            | none => .error .conflict
        | _ => .error .typeError) parts doc

def applyAdd (m : MatOp) (doc : JsonValue) : Except PyError JsonValue :=
  match pyFind "value" m.record with
  | none => .error .invalidPatch
  | some value => addCore m.parts value doc

def applyRemove (m : MatOp) (doc : JsonValue) : Except PyError JsonValue :=
  removeCore m.parts doc

def applyReplace (m : MatOp) (doc : JsonValue) : Except PyError JsonValue :=
  match pyFind "value" m.record with
  | none => .error .invalidPatch
  | some value => replaceCore m.parts value doc

/-- `MoveOperation.apply`: parse `from` (missing raises `InvalidJsonPatch`),
read the source value (`JsonPatchConflict` when absent), no-op when the two
pointers are equal, conflict when the source parent is a mapping and the
target pointer lies inside the source pointer, otherwise a `remove` at
`from` followed by an `add` of the read value at `path` (the source builds
fresh operation records over the same path strings; `removeCore`/`addCore`
receive the identical parsed pointers). -/
def applyMove (m : MatOp) (doc : JsonValue) : Except PyError JsonValue :=
  match pyFind "from" m.record with
  | none => .error .invalidPatch
  | some fv =>
      match fv with
      | .str fs => do
          let fparts ← parsePointer fs
          let pr ← toLastRead fparts doc
          let value ← pySubscript pr.1 pr.2
          if m.parts == fparts then .ok doc
          else
            if (match pr.1 with | .obj _ => true | _ => false)
                && ptrContains m.parts fparts then .error .conflict
            else do
              let d1 ← removeCore fparts doc
              addCore m.parts value d1
      | _ => .error .typeError

/-- `CopyOperation.apply`: parse `from`, read and deep-copy the source value
(`JsonPatchConflict` when absent), then `add` it at `path`.  No equality or
containment check is performed. -/
def applyCopy (m : MatOp) (doc : JsonValue) : Except PyError JsonValue :=
  match pyFind "from" m.record with
  | none => .error .invalidPatch
  | some fv =>
      match fv with
      | .str fs => do
          let fparts ← parsePointer fs
          let pr ← toLastRead fparts doc
          let value ← pySubscript pr.1 pr.2
          addCore m.parts (deepcopy value) doc
      | _ => .error .typeError

/-- The pointer-resolution block of `TestOperation.apply`: `to_last`, then
the final `walk` step (the empty pointer yields the document itself). -/
def testResolve (parts : List String) (doc : JsonValue) : Except PyError JsonValue := do
  let pr ← toLastRead parts doc
  match pr.2 with
  | .root => .ok pr.1
  | p => walkPart pr.1 p

/-- `TestOperation.apply`: a pointer-resolution failure is caught and
re-raised as `JsonPatchTestFailed`; only then is the `value` field looked up
(missing raises `InvalidJsonPatch`); an unequal resolved value raises
`JsonPatchTestFailed`. -/
def applyTest (m : MatOp) (doc : JsonValue) : Except PyError JsonValue :=
  match testResolve m.parts doc with
  | .error .pointerError => .error .testFailed
  | .error e => .error e
  | .ok val =>
      match pyFind "value" m.record with
      | none => .error .invalidPatch
      | some value => if pyEq val value then .ok doc else .error .testFailed

def applyMatOp (m : MatOp) (doc : JsonValue) : Except PyError JsonValue :=
  match m.kind with
  | .add => applyAdd m doc
  | .remove => applyRemove m doc
  | .replace => applyReplace m doc
  | .move => applyMove m doc
  | .copy => applyCopy m doc
  | .test => applyTest m doc

/- ## The patch facade -/

/-- `JsonPatch._ops`: materialize every record, in order, first failure
aborts. -/
def materializeAll : List OpRec → Except PyError (List MatOp)
  | [] => .ok []
  | r :: rest => do
      let m ← materializeOp r
      let ms ← materializeAll rest
      .ok (m :: ms)

/-- The operation loop of `JsonPatch.apply`: each operation consumes the
output of the previous one. -/
def applyOps : List MatOp → JsonValue → Except PyError JsonValue
  | [], doc => .ok doc
  | m :: ms, doc => do
      let d' ← applyMatOp m doc
      applyOps ms d'

/-- `JsonPatch.apply(obj, in_place)`: deep-copy the document unless
`in_place`, then materialize the operations and run them in order. -/
def applyJsonPatch (doc : JsonValue) (ops : List OpRec) (inPlace : Bool) :
    Except PyError JsonValue :=
  let obj := if inPlace then doc else deepcopy doc
  do
    let ms ← materializeAll ops
    applyOps ms obj

/-- `PatchOperation.__eq__`: Python `==` of the two operation dicts. -/
def recEq (a b : OpRec) : Bool :=
  a.length == b.length && pyEqObj a b

def recListEq : List OpRec → List OpRec → Bool
  | [], [] => true
  | a :: xs, b :: ys => recEq a b && recListEq xs ys
  | _, _ => false

/-- `JsonPatch.__eq__` between two patches: both operation tuples are
materialized (structural errors raise here), then compared elementwise as
dicts. -/
def patchEq (p1 p2 : List OpRec) : Except PyError Bool := do
  let m1 ← materializeAll p1
  let m2 ← materializeAll p2
  .ok (recListEq (m1.map MatOp.record) (m2.map MatOp.record))

/-- Python `hash` of a scalar JSON value; lists and dicts are unhashable and
raise `TypeError`. -/
def hashScalar : JsonValue → Except PyError Int
  | .null => .ok 0
  | .bool b => .ok (if b then 1 else 0)
  | .num n => .ok n
  | .str s => .ok (s.data.foldl (fun h c => h * 31 + (c.toNat : Int)) 7)
  | .arr _ => .error .typeError
  | .obj _ => .error .typeError

/-- `PatchOperation.__hash__` = `hash(frozenset(operation.items()))`: every
field value must be hashable; the combination is order-insensitive. -/
def hashRec : OpRec → Except PyError Int
  | [] => .ok 0
  | (k, v) :: rest => do
      let hv ← hashScalar v
      let hr ← hashRec rest
      .ok ((k.data.foldl (fun h c => h * 31 + (c.toNat : Int)) 7) * 1000003 + hv + hr)

/-- `hash(tuple(...))`: order-sensitive combination. -/
def hashMatList : List MatOp → Except PyError Int
  | [] => .ok 1
  | m :: rest => do
      let h ← hashRec m.record
      let t ← hashMatList rest
      .ok (h * 31 + t + 7)

/-- `JsonPatch.__hash__` = `hash(tuple(self._ops))`: materialize, then hash
each operation record. -/
def patchHash (p : List OpRec) : Except PyError Int := do
  let ms ← materializeAll p
  hashMatList ms

/- ## The diff synthesizer -/

/-- Accumulator of `_longest_common_subseq`: the best length `z` and the
last recorded ranges. -/
structure LcsState where
  z : Nat
  rangeSrc : Option (Nat × Nat)
  rangeDst : Option (Nat × Nat)
deriving Repr

/-- One row of the `_longest_common_subseq` matrix: walk `dst` at source
row `i`, producing the new row and threading the accumulator exactly as the
source does (update `z` first, then re-record the ranges whenever the cell
equals `z`). -/
def lcsRowAux (si : JsonValue) (i : Nat) (prevRow : List Nat) :
    List JsonValue → Nat → LcsState → List Nat × LcsState
  | [], _, st => ([], st)
  | dj :: rest, j, st =>
      let hit := pyEq si dj
      let v : Nat :=
        if hit then
          if i == 0 || j == 0 then 1 else prevRow.getD (j - 1) 0 + 1
        else 0
      let st :=
        if hit then
          let z' := if v > st.z then v else st.z
          if v == z' then
            { z := z', rangeSrc := some (i + 1 - z', i + 1),
              rangeDst := some (j + 1 - z', j + 1) }
          else { st with z := z' }
        else st
      let (row, st') := lcsRowAux si i prevRow rest (j + 1) st
      (v :: row, st')

def lcsRows (dst : List JsonValue) :
    List JsonValue → Nat → List Nat → LcsState → LcsState
  | [], _, _, st => st
  | si :: srest, i, prevRow, st =>
      let (row, st') := lcsRowAux si i prevRow dst 0 st
      lcsRows dst srest (i + 1) row st'

/-- `_longest_common_subseq`: index ranges of a longest common subsequence
of the two lists (`none` when there is no common element). -/
def longestCommonSubseq (src dst : List JsonValue) :
    Option (Nat × Nat) × Option (Nat × Nat) :=
  let st := lcsRows dst src 0 (dst.map (fun _ => 0)) ⟨0, none, none⟩
  (st.rangeSrc, st.rangeDst)

/-- The flat tree built by `_split_by_common_seq`: a node is the Python
2-list `[left, right]`, a leaf is `None` or an absolute index range
(`-1` is the end-of-list sentinel of the top-level call). -/
inductive SplitTree where
  | leafNone
  | leafRange (s e : Int)
  | node (l r : SplitTree)
deriving Repr

def leafOf : Option (Int × Int) → SplitTree
  | none => .leafNone
  | some (s, e) => .leafRange s e

/-- `_split_by_common_seq`: recursively split around the longest common
subsequence.  `bxr`/`byr` are the absolute ranges of the processed
sublists; a range with equal endpoints is normalized to `None`, and the
source would crash with a `TypeError` if it then had to read its first
component (not reachable from the top-level call). -/
def splitByCommonSeq : Nat → List JsonValue → List JsonValue →
    (Int × Int) → (Int × Int) → Except PyError SplitTree
  | 0, _, _, _, _ => .error .outOfFuel
  | fuel + 1, src, dst, bxr, byr =>
      let bx := if bxr.1 == bxr.2 then none else some bxr
      let by_ := if byr.1 == byr.2 then none else some byr
      if src.isEmpty then .ok (.node .leafNone (leafOf by_))
      else if dst.isEmpty then .ok (.node (leafOf bx) .leafNone)
      else
        match longestCommonSubseq src dst with
        | (some x, some y) =>
            (match bx, by_ with
             | some bxv, some byv => do
                 let l ← splitByCommonSeq fuel (src.take x.1) (dst.take y.1)
                     (bxv.1, bxv.1 + (x.1 : Int)) (byv.1, byv.1 + (y.1 : Int))
                 let r ← splitByCommonSeq fuel (src.drop x.2) (dst.drop y.2)
                     (bxv.1 + (x.2 : Int), bxv.1 + (src.length : Int))
                     (byv.1 + (y.2 : Int), byv.1 + (dst.length : Int))
                 .ok (.node l r)
             | _, _ => .error .typeError)
        | _ => .ok (.node (leafOf bx) (leafOf by_))

/-- `range(a, b)` over integers. -/
def intRange (a b : Int) : List Int :=
  (List.range (b - a).toNat).map (fun n => a + n)

/-- `JsonPointer.from_parts(parts).path`: escape each token, prefix each
with `/`. -/
def fromPartsStr (parts : List String) : String :=
  (parts.map (fun p => "/" ++ String.mk (escapeChars p.data))).foldl (· ++ ·) ""

def getField (r : OpRec) (k : String) : Except PyError JsonValue :=
  match pyFind k r with
  | some v => .ok v
  | none => .error .keyError

/-- `_compare_left` on the reversed index list: `remove` operations from the
tail of the range, each carrying the removed value (the `move` optimization
hack) and decrementing the shift. -/
def compareLeftAux (path : List String) (src : List JsonValue) :
    List Int → Int → Except PyError (List OpRec × Int)
  | [], shift => .ok ([], shift)
  | idx :: rest, shift => do
      let v ←
        match pyIdx src (idx - shift) with
        | some v => .ok v
        | none => .error .indexError
      let r : OpRec :=
        [("op", .str "remove"), ("value", v),
         ("path", .str (fromPartsStr (path ++ [intToStr idx])))]
      let (ops, shift') ← compareLeftAux path src rest (shift - 1)
      .ok (r :: ops, shift')

def compareLeft (path : List String) (src : List JsonValue) (s e shift : Int) :
    Except PyError (List OpRec × Int) :=
  let e := if e == -1 then (src.length : Int) else e
  compareLeftAux path src (intRange (s + shift) (e + shift)).reverse shift

/-- `_compare_right`: `add` operations over the range, incrementing the
shift. -/
def compareRightAux (path : List String) (dst : List JsonValue) :
    List Int → Int → Except PyError (List OpRec × Int)
  | [], shift => .ok ([], shift)
  | idx :: rest, shift => do
      let v ←
        match pyIdx dst idx with
        | some v => .ok v
        | none => .error .indexError
      let r : OpRec :=
        [("op", .str "add"),
         ("path", .str (fromPartsStr (path ++ [intToStr idx]))),
         ("value", v)]
      let (ops, shift') ← compareRightAux path dst rest (shift + 1)
      .ok (r :: ops, shift')

def compareRight (path : List String) (dst : List JsonValue) (s e shift : Int) :
    Except PyError (List OpRec × Int) :=
  let e := if e == -1 then (dst.length : Int) else e
  compareRightAux path dst (intRange s e) shift

/-- `_compare_with_shift` over the split tree.  A leaf range plays the
`remove` role in a left slot and the `add` role in a right slot; a node
processes its left child, threads the shift, then its right child. -/
def compareTree (path : List String) (src dst : List JsonValue) :
    Bool → SplitTree → Int → Except PyError (List OpRec × Int)
  | _, .leafNone, shift => .ok ([], shift)
  | isLeft, .leafRange s e, shift =>
      if isLeft then compareLeft path src s e shift
      else compareRight path dst s e shift
  | _, .node a b, shift => do
      let (ops1, s1) ← compareTree path src dst true a shift
      let (ops2, s2) ← compareTree path src dst false b s1
      .ok (ops1 ++ ops2, s2)

/- ### The optimizer state (`_optimize`) -/

/-- The mutable state of `_optimize`, with dict aliasing made explicit:
`store` holds the appended result records (later in-place mutations hit the
stored record), `byPath` and `byValue` map a path string / a hashable value
to the index of the last appended record. -/
structure OptState where
  store : List OpRec
  byPath : List (String × Nat)
  byValue : List (JsonValue × Nat)
deriving Repr

def storeGet (store : List OpRec) (i : Nat) : Except PyError OpRec :=
  match store.get? i with
  | some r => .ok r
  | none => .error .keyError

def assocFindStr : List (String × Nat) → String → Option Nat
  | [], _ => none
  | (k, i) :: rest, s => if k == s then some i else assocFindStr rest s

def assocSetStr : List (String × Nat) → String → Nat → List (String × Nat)
  | [], s, i => [(s, i)]
  | (k, j) :: rest, s, i =>
      if k == s then (s, i) :: rest else (k, j) :: assocSetStr rest s i

def assocFindVal : List (JsonValue × Nat) → JsonValue → Option Nat
  | [], _ => none
  | (k, i) :: rest, v => if pyEq k v then some i else assocFindVal rest v

def assocSetVal : List (JsonValue × Nat) → JsonValue → Nat → List (JsonValue × Nat)
  | [], v, i => [(v, i)]
  | (k, j) :: rest, v, i =>
      if pyEq k v then (v, i) :: rest else (k, j) :: assocSetVal rest v i

def assocPopVal : List (JsonValue × Nat) → JsonValue → List (JsonValue × Nat)
  | [], _ => []
  | (k, j) :: rest, v =>
      if pyEq k v then rest else (k, j) :: assocPopVal rest v

def joinSlash : List String → String
  | [] => ""
  | [x] => x
  | x :: rest => x ++ "/" ++ joinSlash rest

/-- Python `s.rsplit('/', 1)` unpacked into two names: `none` (an uncaught
`ValueError`) when the string contains no `/`. -/
def rsplitSlash (s : String) : Option (String × String) :=
  let parts := (splitChar '/' s.data).map (fun cs => String.mk cs)
  match parts.reverse with
  | [] => none
  | [_] => none
  | last :: revInit => some (joinSlash revInit.reverse, last)

/-- Python `'tok' in container`: key membership for dicts, element
membership for lists, substring for strings, `TypeError` otherwise. -/
def isSubstrChars (pat : List Char) : List Char → Bool
  | [] => pat.isEmpty
  | x :: xs => pat.isPrefixOf (x :: xs) || isSubstrChars pat xs

def pyMem (tok : String) : JsonValue → Except PyError Bool
  | .obj kvs => .ok (kvs.any (fun kv => kv.1 == tok))
  | .arr xs => .ok (xs.any (fun x => pyEq (.str tok) x))
  | .str s => .ok (isSubstrChars tok.data s.data)
  | _ => .error .typeError

/-- `prev_set & cur_set == prev_set`: the key set of `a` is contained in the
key set of `b`. -/
def keysSubset (a b : List (String × JsonValue)) : Bool :=
  a.all (fun kv => b.any (fun kv' => kv'.1 == kv.1))

/-- `_optimize_using_move`: turn `prev_item` into a `move`.  When the later
operation is the `add`, `from` is the remove's path; when the `add` came
first, the trailing index of the remove's path is decremented by one to
undo the shift the earlier `add` introduced. -/
def optimizeUsingMove (prev cur : OpRec) : Except PyError OpRec := do
  let prev := setAssoc prev "op" (.str "move")
  let curOpV ← getField cur "op"
  let curPathV ← getField cur "path"
  let prevPathV ← getField prev "path"
  match curPathV, prevPathV with
  | .str curPath, .str prevPath =>
      if pyEq curOpV (.str "add") then
        .ok (setAssoc (setAssoc prev "from" (.str prevPath)) "path" (.str curPath))
      else
        match rsplitSlash curPath with
        | none => .error .valueError
        | some (head, tail) =>
            match parseIntToken tail with
            | none => .error .valueError
            | some n =>
                .ok (setAssoc (setAssoc prev "from"
                      (.str (head ++ "/" ++ intToStr (n - 1)))) "path" (.str prevPath))
  | _, _ => .error .typeError

/-- The final pass of `_optimize`: strip the bookkeeping `value` field from
the operations that are still `remove`s. -/
def cleanupOps : List OpRec → Except PyError (List OpRec)
  | [] => .ok []
  | r :: rest => do
      let opv ← getField r "op"
      let r' ←
        if pyEq opv (.str "remove") then
          match delAssoc r "value" with
          | some r2 => .ok r2
          | none => .error .keyError
        else .ok r
      let rest' ← cleanupOps rest
      .ok (r' :: rest')

def isAddRemovePair (a b : JsonValue) : Bool :=
  (pyEq a (.str "add") && pyEq b (.str "remove")) ||
  (pyEq a (.str "remove") && pyEq b (.str "add"))

mutual

/-- `make_patch`: diff with optimization, apply the result to `src` as a
guard (an exception escaping this application escapes `make_patch`), fall
back to the non-optimized diff when the outcome differs from `dst`. -/
def makePatch : Nat → JsonValue → JsonValue → Except PyError (List OpRec)
  | 0, _, _ => .error .outOfFuel
  | fuel + 1, src, dst => do
      let patch ← fromDiff fuel src dst true
      let new ← applyJsonPatch src patch false
      if !(pyEq new dst) then fromDiff fuel src dst false
      else fromDiff fuel src dst true

/-- `JsonPatch.from_diff`. -/
def fromDiff : Nat → JsonValue → JsonValue → Bool → Except PyError (List OpRec)
  | 0, _, _, _ => .error .outOfFuel
  | fuel + 1, src, dst, opt => compareValues fuel [] src dst opt

/-- `compare_values`: nothing for equal values, recurse into dict/dict and
list/list pairs, otherwise a whole-value `replace`. -/
def compareValues : Nat → List String → JsonValue → JsonValue → Bool →
    Except PyError (List OpRec)
  | 0, _, _, _, _ => .error .outOfFuel
  | fuel + 1, path, a, b, opt =>
      if pyEq a b then .ok []
      else
        match a, b with
        | .obj s, .obj d => do
            let o1 ← compareDictsSrc fuel path s d opt
            let o2 ← compareDictsDst fuel path d s
            .ok (o1 ++ o2)
        | .arr s, .arr d => compareLists fuel path s d opt
        | _, b =>
            .ok [[("op", .str "replace"), ("path", .str (fromPartsStr path)),
                  ("value", b)]]

/-- The first loop of `compare_dicts`: `remove` for keys absent from `dst`,
recursion for shared keys. -/
def compareDictsSrc : Nat → List String → List (String × JsonValue) →
    List (String × JsonValue) → Bool → Except PyError (List OpRec)
  | 0, _, _, _, _ => .error .outOfFuel
  | fuel + 1, path, entries, dst, opt =>
      match entries with
      | [] => .ok []
      | (k, v) :: rest =>
          match pyFind k dst with
          | none => do
              let ops ← compareDictsSrc fuel path rest dst opt
              .ok ([("op", JsonValue.str "remove"),
                    ("path", JsonValue.str (fromPartsStr (path ++ [k])))] :: ops)
          | some w => do
              let here ← compareValues fuel (path ++ [k]) v w opt
              let ops ← compareDictsSrc fuel path rest dst opt
              .ok (here ++ ops)

/-- The second loop of `compare_dicts`: `add` for keys absent from `src`. -/
def compareDictsDst : Nat → List String → List (String × JsonValue) →
    List (String × JsonValue) → Except PyError (List OpRec)
  | 0, _, _, _ => .error .outOfFuel
  | fuel + 1, path, entries, src =>
      match entries with
      | [] => .ok []
      | (k, w) :: rest =>
          match pyFind k src with
          | some _ => compareDictsDst fuel path rest src
          | none => do
              let ops ← compareDictsDst fuel path rest src
              .ok ([("op", JsonValue.str "add"),
                    ("path", JsonValue.str (fromPartsStr (path ++ [k]))),
                    ("value", w)] :: ops)

/-- `_compare_lists`: raw ledger-managed emission over the common-subsequence
split, optionally optimized. -/
def compareLists : Nat → List String → List JsonValue → List JsonValue → Bool →
    Except PyError (List OpRec)
  | 0, _, _, _, _ => .error .outOfFuel
  | fuel + 1, path, src, dst, opt => do
      let split ← splitByCommonSeq fuel src dst (0, -1) (0, -1)
      let (raw, _) ← compareTree path src dst true split 0
      if opt then do
        let st ← optimizeFold fuel raw ⟨[], [], []⟩
        cleanupOps st.store
      else .ok raw

def optimizeFold : Nat → List OpRec → OptState → Except PyError OptState
  | 0, _, _ => .error .outOfFuel
  | fuel + 1, ops, st =>
      match ops with
      | [] => .ok st
      | r :: rest => do
          let st' ← optimizeStep fuel st r
          optimizeFold fuel rest st'

/-- One iteration of the `_optimize` loop: collapse onto a pending operation
at the same path into a `replace`, or pair an `add`/`remove` carrying the
same hashable value into a `move`, else append and index the operation. -/
def optimizeStep : Nat → OptState → OpRec → Except PyError OptState
  | 0, _, _ => .error .outOfFuel
  | fuel + 1, st, item => do
      let itemVal ← getField item "value"
      let hashable := match itemVal with
        | .obj _ => false
        | .arr _ => false
        | _ => true
      let itemPathV ← getField item "path"
      match itemPathV with
      | .str ipath =>
          (match assocFindStr st.byPath ipath with
           | some pidx => do
               let prev ← storeGet st.store pidx
               let prev' ← optimizeUsingReplace fuel prev item
               .ok { st with store := st.store.set pidx prev' }
           | none =>
               match (if hashable then assocFindVal st.byValue itemVal else none) with
               | some pidx => do
                   let prev ← storeGet st.store pidx
                   let itemOpV ← getField item "op"
                   let prevOpV ← getField prev "op"
                   if isAddRemovePair itemOpV prevOpV then do
                     let prev' ← optimizeUsingMove prev item
                     .ok { st with store := st.store.set pidx prev',
                                   byValue := assocPopVal st.byValue itemVal }
                   else
                     .ok { store := st.store ++ [item],
                           byPath := assocSetStr st.byPath ipath st.store.length,
                           byValue := if hashable
                             then assocSetVal st.byValue itemVal st.store.length
                             else st.byValue }
               | none =>
                   .ok { store := st.store ++ [item],
                         byPath := assocSetStr st.byPath ipath st.store.length,
                         byValue := if hashable
                           then assocSetVal st.byValue itemVal st.store.length
                           else st.byValue })
      | _ => .error .typeError

/-- `_optimize_using_replace`: turn the pending operation into a `replace`;
when the new operation is an `add`, sub-diff the two values (reversing the
diff direction for a single-key dict whose key set is contained in the new
one), and when the sub-patch is a single non-`remove` operation whose first
path token occurs in the pending value, refine the replace to the deeper
path; otherwise replace with the new value wholesale. -/
def optimizeUsingReplace : Nat → OpRec → OpRec → Except PyError OpRec
  | 0, _, _ => .error .outOfFuel
  | fuel + 1, prev0, cur => do
      let prev := setAssoc prev0 "op" (.str "replace")
      let curOpV ← getField cur "op"
      if pyEq curOpV (.str "add") then do
        let prevVal ← getField prev "value"
        let curVal ← getField cur "value"
        let patch0 ← makePatch fuel prevVal curVal
        let patch ←
          match prevVal, curVal with
          | .obj pkvs, .obj ckvs =>
              if pkvs.length == 1 && keysSubset pkvs ckvs then
                makePatch fuel curVal prevVal
              else .ok patch0
          | _, _ => .ok patch0
        match patch with
        | [p0] => do
            let p0opV ← getField p0 "op"
            let p0pathV ← getField p0 "path"
            (match p0pathV with
             | .str ps =>
                 if !(pyEq p0opV (.str "remove")) && !(ps == "") then do
                   let tok ←
                     match (splitChar '/' ps.data).get? 1 with
                     | some cs => .ok (String.mk cs)
                     | none => .error .indexError
                   let isMem ← pyMem tok prevVal
                   if isMem then do
                     let prevPathV ← getField prev "path"
                     (match prevPathV with
                      | .str pp => do
                          let p0val ← getField p0 "value"
                          .ok (setAssoc (setAssoc prev "path" (.str (pp ++ ps)))
                                "value" p0val)
                      | _ => .error .typeError)
                   else do
                     .ok (setAssoc prev "value" curVal)
                 else do
                   .ok (setAssoc prev "value" curVal)
             | _ => .error .typeError)
        | _ => do
            .ok (setAssoc prev "value" curVal)
      else .ok prev

end

/- ## Well-formedness and basic lemmas -/

/-- No two entries of a dict share a key (true of every Python dict). -/
def noDupKeys : List (String × JsonValue) → Bool
  | [] => true
  | (k, _) :: rest => !(rest.any (fun kv => kv.1 == k)) && noDupKeys rest

mutual

/-- Well-formed JSON value: every object in it has unique keys.  Every value
reachable from Python satisfies this. -/
def wfJson : JsonValue → Bool
  | .null => true
  | .bool _ => true
  | .num _ => true
  | .str _ => true
  | .arr xs => wfList xs
  | .obj kvs => noDupKeys kvs && wfObj kvs

def wfList : List JsonValue → Bool
  | [] => true
  | x :: xs => wfJson x && wfList xs

def wfObj : List (String × JsonValue) → Bool
  | [] => true
  | (_, v) :: rest => wfJson v && wfObj rest

end

mutual

theorem deepcopy_eq : (v : JsonValue) → deepcopy v = v
  | .null => rfl
  | .bool _ => rfl
  | .num _ => rfl
  | .str _ => rfl
  | .arr xs => by simp [deepcopy, deepcopyList_eq xs]
  | .obj kvs => by simp [deepcopy, deepcopyObj_eq kvs]

theorem deepcopyList_eq : (xs : List JsonValue) → deepcopyList xs = xs
  | [] => rfl
  | x :: xs => by simp [deepcopyList, deepcopy_eq x, deepcopyList_eq xs]

theorem deepcopyObj_eq : (kvs : List (String × JsonValue)) → deepcopyObj kvs = kvs
  | [] => rfl
  | (k, v) :: rest => by simp [deepcopyObj, deepcopy_eq v, deepcopyObj_eq rest]

end

@[simp] theorem exceptBind_ok {α β : Type} (a : α) (f : α → Except PyError β) :
    (Except.ok a >>= f : Except PyError β) = f a := rfl

@[simp] theorem exceptBind_error {α β : Type} (e : PyError) (f : α → Except PyError β) :
    ((Except.error e : Except PyError α) >>= f) = Except.error e := rfl

@[simp] theorem exceptPure {α : Type} (a : α) :
    (pure a : Except PyError α) = Except.ok a := rfl

theorem pyFind_of_noDup : ∀ (kvs : List (String × JsonValue)) (k : String) (v : JsonValue),
    noDupKeys kvs = true → (k, v) ∈ kvs → pyFind k kvs = some v := by
  intro kvs
  induction kvs with
  | nil => intro k v _ hm; cases hm
  | cons hd tl ih =>
      intro k v hnd hm
      obtain ⟨k0, v0⟩ := hd
      rw [noDupKeys, Bool.and_eq_true] at hnd
      rcases List.mem_cons.mp hm with heq | htl
      · injection heq with hk hv
        subst hk; subst hv
        simp [pyFind]
      · have hany : tl.any (fun kv => kv.1 == k0) = false := by
          have h1 := hnd.1
          rwa [Bool.not_eq_true'] at h1
        have hne : (k0 == k) = false := by
          apply beq_eq_false_iff_ne.mpr
          intro hkk
          exact (List.any_eq_false.mp hany) (k, v) htl (beq_iff_eq.mpr hkk.symm)
        simp [pyFind, hne]
        exact ih k v hnd.2 htl

theorem pyEqObj_of_entries : ∀ (sub full : List (String × JsonValue)),
    (∀ k v, (k, v) ∈ sub → pyFind k full = some v ∧ pyEq v v = true) →
    pyEqObj sub full = true := by
  intro sub full
  induction sub with
  | nil => intro _; rfl
  | cons hd tl ih =>
      intro h
      obtain ⟨k, v⟩ := hd
      obtain ⟨hfind, hrefl⟩ := h k v (List.mem_cons_self _ _)
      simp [pyEqObj, hfind, hrefl]
      exact ih (fun k' v' hm => h k' v' (List.mem_cons_of_mem _ hm))

mutual

/-- Python `==` is reflexive on well-formed values. -/
theorem pyEq_refl : (v : JsonValue) → wfJson v = true → pyEq v v = true
  | .null, _ => rfl
  | .bool b, _ => by simp [pyEq]
  | .num n, _ => by simp [pyEq]
  | .str s, _ => by simp [pyEq]
  | .arr xs, h => by
      simp only [wfJson] at h
      simp only [pyEq]
      exact pyEqList_refl xs h
  | .obj kvs, h => by
      simp only [wfJson, Bool.and_eq_true] at h
      simp only [pyEq, Bool.and_eq_true, beq_self_eq_true, true_and]
      exact pyEqObj_of_entries kvs kvs
        (fun k v hm => ⟨pyFind_of_noDup kvs k v h.1 hm, wfObj_entries_refl kvs h.2 k v hm⟩)

theorem pyEqList_refl : (xs : List JsonValue) → wfList xs = true → pyEqList xs xs = true
  | [], _ => rfl
  | x :: xs, h => by
      simp only [wfList, Bool.and_eq_true] at h
      simp only [pyEqList, Bool.and_eq_true]
      exact ⟨pyEq_refl x h.1, pyEqList_refl xs h.2⟩

theorem wfObj_entries_refl : (kvs : List (String × JsonValue)) → wfObj kvs = true →
    ∀ k v, (k, v) ∈ kvs → pyEq v v = true
  | [], _ => by intro k v hm; cases hm
  | (k0, v0) :: rest, h => by
      simp only [wfObj, Bool.and_eq_true] at h
      intro k v hm
      rcases List.mem_cons.mp hm with heq | htl
      · injection heq with hk hv
        subst hv
        exact pyEq_refl v h.1
      · exact wfObj_entries_refl rest h.2 k v htl

end

theorem recEq_refl (r : OpRec) (h : wfJson (.obj r) = true) : recEq r r = true := by
  have h2 := pyEq_refl (.obj r) h
  simpa [pyEq, recEq] using h2

theorem recListEq_refl : ∀ (l : List OpRec), (∀ r ∈ l, recEq r r = true) →
    recListEq l l = true := by
  intro l
  induction l with
  | nil => intro _; rfl
  | cons hd tl ih =>
      intro h
      simp [recListEq, h hd (List.mem_cons_self _ _)]
      exact ih (fun r hm => h r (List.mem_cons_of_mem _ hm))

theorem materializeOp_record (r : OpRec) (m : MatOp) (h : materializeOp r = .ok m) :
    m.record = r := by
  unfold materializeOp at h
  simp only [Except.map] at h
  repeat' split at h
  all_goals first
    | (cases h; done)
    | (injection h with h4; rw [← h4])

theorem materializeAll_records : ∀ (ops : List OpRec) (ms : List MatOp),
    materializeAll ops = .ok ms → ms.map MatOp.record = ops := by
  intro ops
  induction ops with
  | nil =>
      intro ms h
      injection h with h2
      rw [← h2]
      rfl
  | cons hd tl ih =>
      intro ms h
      simp only [materializeAll] at h
      cases h1 : materializeOp hd with
      | error e => rw [h1] at h; cases h
      | ok m =>
          rw [h1] at h
          cases h2 : materializeAll tl with
          | error e => rw [h2] at h; cases h
          | ok ms' =>
              rw [h2] at h
              injection h with h3
              rw [← h3]
              simp [materializeOp_record hd m h1, ih ms' h2]

theorem materializeAll_append_error :
    ∀ (good : List OpRec) (ms : List MatOp) (bad : OpRec) (rest : List OpRec) (e : PyError),
    materializeAll good = .ok ms → materializeOp bad = .error e →
    materializeAll (good ++ bad :: rest) = .error e := by
  intro good
  induction good with
  | nil =>
      intro ms bad rest e _ hbad
      rw [List.nil_append, materializeAll, hbad]
      rfl
  | cons hd tl ih =>
      intro ms bad rest e hgood hbad
      simp only [materializeAll] at hgood
      cases h1 : materializeOp hd with
      | error e' => rw [h1] at hgood; cases hgood
      | ok m =>
          rw [h1] at hgood
          cases h2 : materializeAll tl with
          | error e' => rw [h2] at hgood; cases hgood
          | ok ms' =>
              rw [List.cons_append, materializeAll, h1, ih ms' bad rest e h2 hbad]
              rfl

@[simp] theorem exceptBind_id {α : Type} (x : Except PyError α) :
    (x >>= fun a => (Except.ok a : Except PyError α)) = x := by
  cases x <;> rfl

/-- Applying a one-operation patch (not in place) is materializing the
operation and applying it to the deep copy. -/
theorem applyJsonPatch_single (doc : JsonValue) (r : OpRec) (m : MatOp)
    (hm : materializeOp r = .ok m) :
    applyJsonPatch doc [r] false = applyMatOp m (deepcopy doc) := by
  unfold applyJsonPatch materializeAll
  rw [hm]
  simp [applyOps, materializeAll]

/-- All field values of an operation record are hashable scalars. -/
def recHashable (r : OpRec) : Bool :=
  r.all (fun kv =>
    match kv.2 with
    | .arr _ => false
    | .obj _ => false
    | _ => true)

/-- An operation record with a structurally bad `op` field: missing,
non-string, or naming an unknown operation. -/
def badOpShape (r : OpRec) : Bool :=
  match pyFind "op" r with
  | none => true
  | some (.str s) => (opFromString s).isNone
  | some _ => true

/- ## The claims -/

/-- C1 (code bug): the round-trip `apply(src, make_patch(src, dst)) == dst`
fails.  On `src = [{"x": {"a": 1}, "y": 0}]` and
`dst = [{"x": {"a": 1, "b": 2}, "y": 0}]` the optimizer rewrites the
remove/add pair into a `replace` at `/0/x/b`, a path that does not exist in
`src`; the guard inside `make_patch` applies this patch to `src` and the
resulting `JsonPatchConflict` escapes, so `make_patch` raises instead of
returning a patch.  The second conjunct shows the non-optimized diff for the
same input is correct, so the intended fallback would have produced the
right patch had the guard caught the exception. -/
theorem claim_C1 :
    makePatch 100
      (.arr [.obj [("x", .obj [("a", .num 1)]), ("y", .num 0)]])
      (.arr [.obj [("x", .obj [("a", .num 1), ("b", .num 2)]), ("y", .num 0)]])
      = .error .conflict
    ∧ (do
        let p ← fromDiff 100
          (.arr [.obj [("x", .obj [("a", .num 1)]), ("y", .num 0)]])
          (.arr [.obj [("x", .obj [("a", .num 1), ("b", .num 2)]), ("y", .num 0)]]) false
        applyJsonPatch (.arr [.obj [("x", .obj [("a", .num 1)]), ("y", .num 0)]]) p false)
      = .ok (.arr [.obj [("x", .obj [("a", .num 1), ("b", .num 2)]), ("y", .num 0)]]) :=
  ⟨rfl, rfl⟩

/-- C2 (confirmed): `diff({"foo": [1, 2, 3]}, {"foo": [3, 1, 2]})` is exactly
one operation, its `op` field is `"move"` (the record also carries the
residual bookkeeping `value` field), and applying it to the source yields
`{"foo": [3, 1, 2]}`. -/
theorem claim_C2 :
    makePatch 50 (.obj [("foo", .arr [.num 1, .num 2, .num 3])])
                 (.obj [("foo", .arr [.num 3, .num 1, .num 2])])
      = .ok [[("op", .str "move"), ("path", .str "/foo/0"),
              ("value", .num 3), ("from", .str "/foo/2")]]
    ∧ pyFind "op" [("op", JsonValue.str "move"), ("path", JsonValue.str "/foo/0"),
                   ("value", JsonValue.num 3), ("from", JsonValue.str "/foo/2")]
        = some (.str "move")
    ∧ applyJsonPatch (.obj [("foo", .arr [.num 1, .num 2, .num 3])])
        [[("op", .str "move"), ("path", .str "/foo/0"),
          ("value", .num 3), ("from", .str "/foo/2")]] false
      = .ok (.obj [("foo", .arr [.num 3, .num 1, .num 2])]) :=
  ⟨rfl, rfl, rfl⟩

/-- C3 (code bug): `replace` into an array at index `i == len` raises an
uncaught `IndexError` from the assignment `subobj[part] = value`, not
`JsonPatchConflict`: the guard only catches `part > len` and `part < 0`.
Shown at `len = 0` and `len = 1`. -/
theorem claim_C3 :
    applyJsonPatch (.obj [("foo", .arr [])])
      [[("op", .str "replace"), ("path", .str "/foo/0"), ("value", .num 1)]] false
      = .error .indexError
    ∧ applyJsonPatch (.obj [("foo", .arr [.num 7])])
      [[("op", .str "replace"), ("path", .str "/foo/1"), ("value", .num 1)]] false
      = .error .indexError :=
  ⟨rfl, rfl⟩

/-- C4 counterexample: `add` at the empty path does not replace the whole
document for every JSON type: on an array document the comparison
`None > len(subobj)` raises an uncaught `TypeError`. -/
theorem claim_C4_counterexample :
    applyJsonPatch (.arr [])
      [[("op", .str "add"), ("path", .str ""), ("value", .num 1)]] false
      = .error .typeError := rfl

/-- C4 (corrected): `add` at the empty pointer returns the operation's value
as the new root only when the document is an object; an array document hits
the uncaught `TypeError` of `None > len(...)`, and a scalar document the
explicit `TypeError("invalid document type")`. -/
theorem claim_C4 (kvs : List (String × JsonValue)) (xs : List JsonValue)
    (b : Bool) (n : Int) (s : String) (v : JsonValue) :
    applyJsonPatch (.obj kvs)
      [[("op", .str "add"), ("path", .str ""), ("value", v)]] false = .ok v
    ∧ applyJsonPatch (.arr xs)
      [[("op", .str "add"), ("path", .str ""), ("value", v)]] false = .error .typeError
    ∧ applyJsonPatch .null
      [[("op", .str "add"), ("path", .str ""), ("value", v)]] false = .error .typeError
    ∧ applyJsonPatch (.bool b)
      [[("op", .str "add"), ("path", .str ""), ("value", v)]] false = .error .typeError
    ∧ applyJsonPatch (.num n)
      [[("op", .str "add"), ("path", .str ""), ("value", v)]] false = .error .typeError
    ∧ applyJsonPatch (.str s)
      [[("op", .str "add"), ("path", .str ""), ("value", v)]] false = .error .typeError :=
  ⟨rfl, rfl, rfl, rfl, rfl, rfl⟩

/-- C9 (confirmed): with `in_place=false` the caller's document is never
touched: a complete structural clone is taken first (`deepcopy doc = doc`
in value semantics), and the whole application runs on that clone, whether
or not it succeeds. -/
theorem claim_C9 (doc : JsonValue) (ops : List OpRec) :
    deepcopy doc = doc ∧
    applyJsonPatch doc ops false = applyJsonPatch (deepcopy doc) ops true :=
  ⟨deepcopy_eq doc, rfl⟩

/-- C5 counterexample: a `test` operation with no `value` field raises
`JsonPatchTestFailed`, not `InvalidJsonPatch`, when its path fails to
resolve (`/a` against `{}`): pointer resolution happens before the `value`
lookup and its failure is caught first. -/
theorem claim_C5_counterexample :
    applyJsonPatch (.obj [])
      [[("op", .str "test"), ("path", .str "/a")]] false
      = .error .testFailed := rfl

/-- C5 (corrected): a `test` operation lacking `value` raises
`InvalidJsonPatch` for every document and every path *that resolves*; when
resolution fails, `JsonPatchTestFailed` wins (see the counterexample). -/
theorem claim_C5 (doc : JsonValue) (p : String) (parts : List String) (val : JsonValue)
    (hp : parsePointer p = .ok parts)
    (hres : testResolve parts doc = .ok val) :
    applyJsonPatch doc [[("op", .str "test"), ("path", .str p)]] false
      = .error .invalidPatch := by
  have hmat : materializeOp [("op", JsonValue.str "test"), ("path", JsonValue.str p)]
      = .ok ⟨.test, p, parts, [("op", .str "test"), ("path", .str p)]⟩ := by
    simp [materializeOp, pyFind, opFromString, hp, Except.map]
  rw [applyJsonPatch_single doc _ _ hmat]
  unfold applyMatOp applyTest
  rw [deepcopy_eq, hres]
  simp [pyFind]

theorem claim_C5_witness :
    parsePointer "" = .ok [] ∧ testResolve [] .null = .ok .null ∧
    applyJsonPatch .null [[("op", .str "test"), ("path", .str "")]] false
      = .error .invalidPatch :=
  ⟨rfl, rfl, claim_C5 .null "" [] .null rfl rfl⟩

/-- C6 counterexample: a `move` whose `from` equals its `path` is *not* a
no-op on every document: when the addressed location does not exist the
source read raises `JsonPatchConflict` before the no-op check. -/
theorem claim_C6_counterexample :
    applyJsonPatch (.obj [])
      [[("op", .str "move"), ("from", .str "/a"), ("path", .str "/a")]] false
      = .error .conflict := rfl

/-- C6 (corrected): a `move` whose `from` equals its `path` succeeds and
returns the document unchanged on every document in which the `from`
location resolves to an existing value. -/
theorem claim_C6 (doc : JsonValue) (p : String) (parts : List String)
    (pr : JsonValue × PtrPart) (v : JsonValue)
    (hp : parsePointer p = .ok parts)
    (hres : toLastRead parts doc = .ok pr)
    (hval : pySubscript pr.1 pr.2 = .ok v) :
    applyJsonPatch doc
      [[("op", .str "move"), ("from", .str p), ("path", .str p)]] false
      = .ok doc := by
  have hmat : materializeOp
      [("op", JsonValue.str "move"), ("from", JsonValue.str p), ("path", JsonValue.str p)]
      = .ok ⟨.move, p, parts,
          [("op", .str "move"), ("from", .str p), ("path", .str p)]⟩ := by
    simp [materializeOp, pyFind, opFromString, hp, Except.map]
  rw [applyJsonPatch_single doc _ _ hmat]
  unfold applyMatOp applyMove
  rw [deepcopy_eq]
  simp [pyFind, hp, hres, hval]

theorem claim_C6_witness :
    parsePointer "/a" = .ok ["a"] ∧
    toLastRead ["a"] (.obj [("a", .null)]) = .ok (.obj [("a", .null)], .key "a") ∧
    pySubscript (.obj [("a", .null)]) (.key "a") = .ok .null ∧
    applyJsonPatch (.obj [("a", .null)])
      [[("op", .str "move"), ("from", .str "/a"), ("path", .str "/a")]] false
      = .ok (.obj [("a", .null)]) :=
  ⟨rfl, rfl, rfl,
   claim_C6 (.obj [("a", .null)]) "/a" ["a"] (.obj [("a", .null)], .key "a") .null rfl rfl rfl⟩

/-- C7 counterexample: moving a value to a path strictly below its `from`
does *not* raise `JsonPatchConflict` when the container holding the source
is an array: the descendant check is guarded by
`isinstance(subobj, MutableMapping)`.  This is the repository's own test
`test_move_array_item_into_other_item`, which succeeds outright. -/
theorem claim_C7_counterexample :
    applyJsonPatch (.arr [.obj [("foo", .arr [])], .obj [("bar", .arr [])]])
      [[("op", .str "move"), ("from", .str "/0"), ("path", .str "/0/bar/0")]] false
      = .ok (.arr [.obj [("bar", .arr [.obj [("foo", .arr [])]])]]) := rfl

/-- C7 (corrected): when the container holding the source value is an
*object* (and the source exists), a `move` whose `path` lies strictly below
its `from` raises `JsonPatchConflict`; for an array container the check is
skipped (the operation may succeed, as in the counterexample, or fail with
a pointer error). -/
theorem claim_C7 (doc : JsonValue) (f p : String) (fparts pparts : List String)
    (kvs : List (String × JsonValue)) (k : String) (v : JsonValue)
    (hf : parsePointer f = .ok fparts)
    (hp : parsePointer p = .ok pparts)
    (hres : toLastRead fparts doc = .ok (.obj kvs, .key k))
    (hfind : pyFind k kvs = some v)
    (hpre : ptrContains pparts fparts = true)
    (hne : (pparts == fparts) = false) :
    applyJsonPatch doc
      [[("op", .str "move"), ("from", .str f), ("path", .str p)]] false
      = .error .conflict := by
  have hmat : materializeOp
      [("op", JsonValue.str "move"), ("from", JsonValue.str f), ("path", JsonValue.str p)]
      = .ok ⟨.move, p, pparts,
          [("op", .str "move"), ("from", .str f), ("path", .str p)]⟩ := by
    simp [materializeOp, pyFind, opFromString, hp, Except.map]
  rw [applyJsonPatch_single doc _ _ hmat]
  unfold applyMatOp applyMove
  rw [deepcopy_eq]
  simp [pyFind, hf, hres, pySubscript, hfind, hne, hpre]
  exact beq_eq_false_iff_ne.mp hne

theorem claim_C7_witness :
    parsePointer "/a" = .ok ["a"] ∧
    parsePointer "/a/b" = .ok ["a", "b"] ∧
    toLastRead ["a"] (.obj [("a", .obj [])]) = .ok (.obj [("a", .obj [])], .key "a") ∧
    pyFind "a" [("a", JsonValue.obj [])] = some (.obj []) ∧
    ptrContains ["a", "b"] ["a"] = true ∧
    ((["a", "b"] : List String) == ["a"]) = false ∧
    applyJsonPatch (.obj [("a", .obj [])])
      [[("op", .str "move"), ("from", .str "/a"), ("path", .str "/a/b")]] false
      = .error .conflict :=
  ⟨rfl, rfl, rfl, rfl, rfl, rfl,
   claim_C7 (.obj [("a", .obj [])]) "/a" "/a/b" ["a"] ["a", "b"]
     [("a", .obj [])] "a" (.obj []) rfl rfl rfl rfl rfl rfl⟩

theorem hashScalar_ok (v : JsonValue)
    (h : (match v with
          | JsonValue.arr _ => false
          | JsonValue.obj _ => false
          | _ => true) = true) :
    ∃ x, hashScalar v = .ok x := by
  cases v <;> simp [hashScalar] <;> cases h

theorem hashRec_ok : ∀ (r : OpRec), recHashable r = true → ∃ x, hashRec r = .ok x := by
  intro r
  induction r with
  | nil => intro _; exact ⟨0, rfl⟩
  | cons hd tl ih =>
      intro h
      obtain ⟨k, v⟩ := hd
      rw [recHashable, List.all_cons, Bool.and_eq_true] at h
      obtain ⟨x, hx⟩ := hashScalar_ok v h.1
      obtain ⟨t, ht⟩ := ih h.2
      refine ⟨(k.data.foldl (fun a c => a * 31 + (c.toNat : Int)) 7) * 1000003 + x + t, ?_⟩
      rw [hashRec, hx, ht]
      rfl

theorem hashMatList_ok : ∀ (ms : List MatOp),
    (∀ m ∈ ms, ∃ x, hashRec m.record = .ok x) → ∃ x, hashMatList ms = .ok x := by
  intro ms
  induction ms with
  | nil => intro _; exact ⟨1, rfl⟩
  | cons hd tl ih =>
      intro h
      obtain ⟨x, hx⟩ := h hd (List.mem_cons_self _ _)
      obtain ⟨t, ht⟩ := ih (fun m hm => h m (List.mem_cons_of_mem _ hm))
      refine ⟨x * 31 + t + 7, ?_⟩
      rw [hashMatList, hx, ht]
      rfl

/-- C8 counterexample: hashing is not total on valid operation lists: an
operation whose `value` is an array (a dict behaves the same) makes
`hash(frozenset(operation.items()))` raise `TypeError`, because containers
are unhashable. -/
theorem claim_C8_counterexample :
    patchHash [[("op", .str "add"), ("path", .str "/a"), ("value", .arr [])]]
      = .error .typeError := rfl

/-- C8 (corrected): patch equality is reflexive on every valid (materializable,
well-formed) operation list, but `hash(Patch(p))` evaluates without error
only when every field value of every operation is a hashable scalar; it is
then deterministic (the model is a pure function).  Operations whose `value`
is an array or object make hashing raise `TypeError` (see the
counterexample). -/
theorem claim_C8 (ops : List OpRec) (ms : List MatOp)
    (hmat : materializeAll ops = .ok ms)
    (hwf : ∀ r ∈ ops, wfJson (.obj r) = true) :
    patchEq ops ops = .ok true ∧
    ((∀ r ∈ ops, recHashable r = true) → ∃ x, patchHash ops = .ok x) := by
  have hrecs := materializeAll_records ops ms hmat
  constructor
  · unfold patchEq
    rw [hmat]
    simp only [exceptBind_ok]
    rw [hrecs, recListEq_refl ops (fun r hm => recEq_refl r (hwf r hm))]
  · intro hh
    unfold patchHash
    rw [hmat]
    simp only [exceptBind_ok]
    exact hashMatList_ok ms (fun m hm =>
      hashRec_ok m.record (hh m.record (hrecs ▸ List.mem_map_of_mem MatOp.record hm)))

theorem claim_C8_witness :
    patchEq [[("op", .str "add"), ("path", .str "/a"), ("value", .num 1)]]
            [[("op", .str "add"), ("path", .str "/a"), ("value", .num 1)]] = .ok true ∧
    ((∀ r ∈ [[("op", JsonValue.str "add"), ("path", JsonValue.str "/a"),
              ("value", JsonValue.num 1)]], recHashable r = true) →
      ∃ x, patchHash [[("op", .str "add"), ("path", .str "/a"), ("value", .num 1)]]
        = .ok x) := by
  refine claim_C8 _ [⟨.add, "/a", ["a"],
      [("op", .str "add"), ("path", .str "/a"), ("value", .num 1)]⟩] rfl ?_
  intro r hr
  simp only [List.mem_singleton] at hr
  subst hr
  rfl

theorem materializeOp_bad (r : OpRec) (h : badOpShape r = true) :
    materializeOp r = .error .invalidPatch := by
  unfold badOpShape at h
  cases h0 : pyFind "op" r with
  | none => simp only [materializeOp, h0]
  | some v =>
      rw [h0] at h
      cases v
      all_goals simp only [materializeOp, h0]
      all_goals simp only [] at h
      rename_i s
      cases h1 : opFromString s with
      | none => simp only [h1]
      | some kind =>
          rw [h1] at h
          simp at h

/-- C10 (confirmed): operation validation is deferred.  Constructing the
patch is pure data (the model carries the raw record list, as
`JsonPatch.__init__` stores it without validation); an operation lacking
`op`, carrying a non-string `op`, or naming an unknown operation is only
detected when the operations are materialized, and then raises
`InvalidJsonPatch` — from `apply`, from equality comparison, and from
hashing alike (any well-formed operations before it materialize first). -/
theorem claim_C10 (doc : JsonValue) (inPlace : Bool) (good : List OpRec) (bad : OpRec)
    (rest other : List OpRec) (ms : List MatOp)
    (hgood : materializeAll good = .ok ms)
    (hbad : badOpShape bad = true) :
    materializeAll (good ++ bad :: rest) = .error .invalidPatch ∧
    applyJsonPatch doc (good ++ bad :: rest) inPlace = .error .invalidPatch ∧
    patchEq (good ++ bad :: rest) other = .error .invalidPatch ∧
    patchHash (good ++ bad :: rest) = .error .invalidPatch := by
  have hmat := materializeAll_append_error good ms bad rest .invalidPatch hgood
    (materializeOp_bad bad hbad)
  refine ⟨hmat, ?_, ?_, ?_⟩
  · unfold applyJsonPatch
    rw [hmat]
    rfl
  · unfold patchEq
    rw [hmat]
    rfl
  · unfold patchHash
    rw [hmat]
    rfl

theorem claim_C10_witness :
    materializeAll [[("path", JsonValue.str "/a")]] = .error .invalidPatch ∧
    applyJsonPatch .null [[("path", JsonValue.str "/a")]] false = .error .invalidPatch ∧
    patchEq [[("path", JsonValue.str "/a")]] [] = .error .invalidPatch ∧
    patchHash [[("path", JsonValue.str "/a")]] = .error .invalidPatch :=
  claim_C10 .null false [] [("path", .str "/a")] [] [] [] rfl rfl
